import Mathlib

/-!
# Verification of the Web-Games-Lobby simulation core

Shallow embedding of the algorithmic core of the `game-hub` repository:

* the Gerstner wave sampler of `src/games/ocean-glide/OceanGlide.ts`
  (`makeWaveSampler`), including the JS `NaN` semantics that its
  `omegas` computation actually exhibits;
* the boat input smoothing and speed integration of the same file
  (`updateInput`, `updateBoat`);
* the RTS selection / command / movement system of
  `src/games/space-runner/SpaceRunner.ts` (`clearSelection`,
  `applySelectionFilter`, `formationOffsets`, `onMouseUp`,
  `onContextMenu`, `updateUnits`);
* the dispose sequences of both game modules, as operations on an
  explicit resource-ownership state.

JS floating point numbers are modelled as `Option ℝ`: `none` stands for
`NaN`, `some x` for an ordinary (finite) number.  The arithmetic on this
type propagates `NaN` exactly as JS does on the expressions occurring in
the embedded code (no infinities arise at the embedded call sites: the
wave configurations under study have positive wavelengths, and division
by zero is never reached).
-/

noncomputable section

/-! ## JS number model -/

/-- A JS number: `none` is `NaN`, `some x` a real value. -/
abbrev JSNum := Option ℝ

/-- JS addition: `NaN` propagates. -/
def jadd : JSNum → JSNum → JSNum
  | some a, some b => some (a + b)
  | _, _ => none

/-- JS subtraction: `NaN` propagates. -/
def jsub : JSNum → JSNum → JSNum
  | some a, some b => some (a - b)
  | _, _ => none

/-- JS multiplication: `NaN` propagates (also `NaN * 0 = NaN`). -/
def jmul : JSNum → JSNum → JSNum
  | some a, some b => some (a * b)
  | _, _ => none

/-- JS unary minus: `NaN` propagates. -/
def jneg : JSNum → JSNum
  | some a => some (-a)
  | none => none

/-- `Math.sin`: `NaN` propagates. -/
def jsin : JSNum → JSNum
  | some a => some (Real.sin a)
  | none => none

/-- `Math.cos`: `NaN` propagates. -/
def jcos : JSNum → JSNum
  | some a => some (Real.cos a)
  | none => none

/-- `Math.sqrt` on the arguments arising in the embedded code: `NaN`
propagates; every numeric argument passed to it here is nonnegative
(a sum of squares, or `9.81 * k` with `k > 0`), where `Math.sqrt`
agrees with `Real.sqrt`. -/
def jsqrt : JSNum → JSNum
  | some a => some (Real.sqrt a)
  | none => none

/-- Division of a JS number by an ordinary real divisor. -/
def jdivr (a : JSNum) (l : ℝ) : JSNum :=
  match a with
  | some x => some (x / l)
  | none => none

/-! ## Wave component data (OceanGlide.ts, type `GW`) -/

/-- `GW` from OceanGlide.ts: one Gerstner wave component. -/
structure GW where
  dirX : ℝ
  dirY : ℝ
  amp : ℝ
  len : ℝ
  steep : ℝ
  speed : ℝ

/-- JS `ToNumber` of a `GW` record (a plain object without numeric
coercion): `NaN`. -/
def toNumberGW (_ : GW) : JSNum := none

/-- THREE `Vector2.normalize`: divide by `length() || 1`.  For the zero
vector the JS fallback divisor 1 leaves `(0,0)`, and real division by
the zero length also yields `(0,0)`, so no case split is needed. -/
def normalize2 (x y : ℝ) : ℝ × ℝ :=
  let l := Real.sqrt (x ^ 2 + y ^ 2)
  (x / l, y / l)

/-- `dirs[i] = waves[i].dir.clone().normalize()` in `makeWaveSampler`. -/
def dirOf (w : GW) : ℝ × ℝ := normalize2 w.dirX w.dirY

/-- `ks[i] = TWO_PI / waves[i].len` in `makeWaveSampler`. -/
def kOf (w : GW) : ℝ := 2 * Real.pi / w.len

/-- The `omegas` array of `makeWaveSampler` as the code actually
computes it: `waves.map((k, i) => Math.sqrt(g * k) * waves[i].speed)`.
The map runs over `waves`, so the callback parameter named `k` is the
wave OBJECT, and the JS multiplication `g * k` coerces it with
`ToNumber`, producing `NaN`. -/
def omegaCode (w : GW) : JSNum :=
  jmul (jsqrt (jmul (some (9.81 : ℝ)) (toNumberGW w))) (some w.speed)

/-- The angular frequency the surrounding documentation and the GLSL
shader in the same file intend: `ω = sqrt(9.81 * k) * speed` with the
wavenumber `k = 2π/len` (shader: `float w = sqrt(9.81 * k) * speed;`). -/
def omegaSpec (w : GW) : ℝ :=
  Real.sqrt (9.81 * kOf w) * w.speed

/-- `phase = k * (d.x * x + d.y * z) - w * t` with the code's `omegas`. -/
def phaseCode (w : GW) (x z t : ℝ) : JSNum :=
  jsub (some (kOf w * ((dirOf w).1 * x + (dirOf w).2 * z)))
    (jmul (omegaCode w) (some t))

/-- The phase the specification describes:
`k·(dir·[x,z]) − ω·t` with `ω = sqrt(9.81·k)·speed`. -/
def phaseSpec (w : GW) (x z t : ℝ) : ℝ :=
  kOf w * ((dirOf w).1 * x + (dirOf w).2 * z) - omegaSpec w * t

/-- Accumulator of the `heightAndNormal` loop. -/
structure WaveAccum where
  dispX : JSNum
  dispY : JSNum
  dispZ : JSNum
  dHdX : JSNum
  dHdZ : JSNum

/-- One iteration of the `heightAndNormal` loop body (OceanGlide.ts
lines 41–58). -/
def accumStep (x z t : ℝ) (a : WaveAccum) (w : GW) : WaveAccum :=
  let d := dirOf w
  let k := kOf w
  let sinP := jsin (phaseCode w x z t)
  let cosP := jcos (phaseCode w x z t)
  { dispX := jadd a.dispX (jmul (some (w.steep * w.amp * d.1)) cosP)
    dispY := jadd a.dispY (jmul (some w.amp) sinP)
    dispZ := jadd a.dispZ (jmul (some (w.steep * w.amp * d.2)) cosP)
    dHdX := jadd a.dHdX (jmul (some (w.amp * k * d.1)) cosP)
    dHdZ := jadd a.dHdZ (jmul (some (w.amp * k * d.2)) cosP) }

/-- The all-zero accumulator the loop starts from. -/
def accumZero : WaveAccum :=
  ⟨some 0, some 0, some 0, some 0, some 0⟩

/-- THREE `Vector3.normalize`: `divideScalar(length() || 1)`.  With a
`NaN` length, the fallback divisor 1 leaves the components unchanged;
with a numeric length `l` the components are divided by `l` (`l = 0`
only happens for the zero vector, where real division by zero returns
the same zero vector JS produces). -/
def jnormalize3 (v : JSNum × JSNum × JSNum) : JSNum × JSNum × JSNum :=
  match jsqrt (jadd (jadd (jmul v.1 v.1) (jmul v.2.1 v.2.1)) (jmul v.2.2 v.2.2)) with
  | none => v
  | some l => (jdivr v.1 l, jdivr v.2.1 l, jdivr v.2.2 l)

/-- Result record of `heightAndNormal`. -/
structure SurfaceSample where
  height : JSNum
  normal : JSNum × JSNum × JSNum
  disp : JSNum × JSNum × JSNum

/-- `makeWaveSampler(waves).heightAndNormal(x, z, t)`
(OceanGlide.ts lines 36–67). -/
def heightAndNormal (waves : List GW) (x z t : ℝ) : SurfaceSample :=
  let a := waves.foldl (accumStep x z t) accumZero
  { height := a.dispY
    normal := jnormalize3 (jneg a.dHdX, some 1, jneg a.dHdZ)
    disp := (a.dispX, a.dispY, a.dispZ) }

/-- The height value the claim describes: real-valued
`Σ amplitude_i · sin(phase_i)` with the spec phases. -/
def heightSpec (waves : List GW) (x z t : ℝ) : ℝ :=
  (waves.map (fun w => w.amp * Real.sin (phaseSpec w x z t))).sum

/-- The three wave components the game instantiates the sampler with
(OceanGlide.ts lines 241–245). -/
def oceanWave1 : GW := ⟨1, 0, 0.35, 16, 0.55, 1⟩

def oceanWave2 : GW := ⟨0.2, 0.98, 0.18, 7, 0.42, 1.2⟩

def oceanWave3 : GW := ⟨-0.9, 0.4, 0.08, 3.5, 0.35, 1.6⟩

def oceanWaves : List GW := [oceanWave1, oceanWave2, oceanWave3]

/-! ## Boat input smoothing (OceanGlide.ts `updateInput`, lines 360–368) -/

/-- `THREE.MathUtils.lerp`: `(1 - t) * x + t * y`. -/
def lerp (x y t : ℝ) : ℝ := (1 - t) * x + t * y

/-- The smoothed intent pair `(targetThrottle, targetSteer)` of the
boat controller. -/
structure Intents where
  throttle : ℝ
  steer : ℝ

/-- One smoothing step: `value ← lerp(value, input, 1 − 0.001^dt)`
(real exponent, `Real.rpow`). -/
def smoothIntent (v input dt : ℝ) : ℝ :=
  lerp v input (1 - (0.001 : ℝ) ^ dt)

/-- `updateInput(dt)` for given raw inputs (the code derives the raw
values from the key state; they are parameters here). -/
def updateInput (s : Intents) (wantThrottle wantSteer dt : ℝ) : Intents :=
  ⟨smoothIntent s.throttle wantThrottle dt, smoothIntent s.steer wantSteer dt⟩

/-! ## Boat speed integration (OceanGlide.ts `updateBoat`, lines 370–379) -/

def MAX_FWD : ℝ := 14

def MAX_REV : ℝ := 3

def ACCEL : ℝ := 7

def DRAG : ℝ := 0.25

/-- `THREE.MathUtils.clamp`: `Math.max(min, Math.min(max, value))`. -/
def clamp (value lo hi : ℝ) : ℝ := max lo (min hi value)

/-- The speed pipeline of `updateBoat`: integrate acceleration, apply
quadratic drag on the updated speed, then clamp to
`[-MAX_REV, MAX_FWD]`. -/
def updateSpeed (speed throttle dt : ℝ) : ℝ :=
  let s1 := speed + ACCEL * throttle * dt
  let s2 := s1 - DRAG * s1 * |s1| * dt
  clamp s2 (-MAX_REV) MAX_FWD

/-! ## RTS data model (SpaceRunner.ts) -/

/-- A 3D point/vector (`THREE.Vector3` as used by SpaceRunner). -/
structure V3 where
  x : ℝ
  y : ℝ
  z : ℝ

def vadd (a b : V3) : V3 := ⟨a.x + b.x, a.y + b.y, a.z + b.z⟩

/-- The zero vector `new THREE.Vector3()`. -/
def vzero : V3 := ⟨0, 0, 0⟩

def vsub (a b : V3) : V3 := ⟨a.x - b.x, a.y - b.y, a.z - b.z⟩

def vscale (v : V3) (k : ℝ) : V3 := ⟨v.x * k, v.y * k, v.z * k⟩

/-- `THREE.Vector3.length`. -/
def vlength (v : V3) : ℝ := Real.sqrt (v.x * v.x + v.y * v.y + v.z * v.z)

/-- `a.distanceTo(b)`. -/
def vdist (a b : V3) : ℝ := vlength (vsub a b)

/-- `setY(0)`. -/
def setY0 (v : V3) : V3 := ⟨v.x, 0, v.z⟩

/-- `THREE.Vector3.normalize`: `divideScalar(length() || 1)`; on the
zero vector the JS fallback divisor 1 gives the zero vector, as does
real division by the zero length, so no case split is needed. -/
def vnormalize (v : V3) : V3 :=
  let l := vlength v
  ⟨v.x / l, v.y / l, v.z / l⟩

/-- The `Unit` record of SpaceRunner.ts (mesh position inlined as
`pos`; the material/ring visuals mirror `selected` and are omitted). -/
structure SUnit where
  id : ℕ
  pos : V3
  target : Option V3
  speed : ℝ
  selected : Bool
  hadTarget : Bool

/-- The events the module can emit through `onEvent`. -/
inductive GameEvent
  | selectionChanged (count : ℕ)
  | commandMove (x z : ℝ) (count : ℕ)
  | unitArrived (id : ℕ) (x z : ℝ)

/-! ## Selection (SpaceRunner.ts 218–238) -/

/-- The per-unit effect of `clearSelection`: deselect (the material
copy and ring hiding mirror the flag). -/
def deselect (u : SUnit) : SUnit := { u with selected := false }

/-- The per-unit effect of selecting in `applySelectionFilter`. -/
def select (u : SUnit) : SUnit := { u with selected := true }

/-- `clearSelection()` (lines 218–225): deselect every unit and emit
`selection:changed{count: 0}`. -/
def clearSelection (us : List SUnit) : List SUnit × List GameEvent :=
  (us.map deselect, [GameEvent.selectionChanged 0])

/-- `applySelectionFilter(filter, additive)` (lines 226–238): clear
first unless additive, mark every unit matching the filter, count the
matches, and emit `selection:changed{count}`. -/
def applySelectionFilter (f : SUnit → Bool) (additive : Bool)
    (us : List SUnit) : List SUnit × List GameEvent :=
  let start := if additive then (us, ([] : List GameEvent)) else clearSelection us
  let marked := start.1.map (fun u => if f u then select u else u)
  let count := (start.1.filter f).length
  (marked, start.2 ++ [GameEvent.selectionChanged count])

/-! ## Box selection on mouse-up (SpaceRunner.ts 323–365) -/

/-- The ground-rectangle filter of the box-select branch:
`p.x/z` within the `[min, max]` bounds of the two ground points. -/
def inWorldRect (g1 g2 : V3) (u : SUnit) : Bool :=
  decide (min g1.x g2.x ≤ u.pos.x ∧ u.pos.x ≤ max g1.x g2.x ∧
    min g1.z g2.z ≤ u.pos.z ∧ u.pos.z ≤ max g1.z g2.z)

/-- The screen-rectangle fallback filter: project the unit's position
to the screen and test containment; the camera projection
`projectToScreen` is the oracle parameter `proj`. -/
def inScreenRect (proj : V3 → ℝ × ℝ) (s1 s2 : ℝ × ℝ) (u : SUnit) : Bool :=
  decide (min s1.1 s2.1 ≤ (proj u.pos).1 ∧ (proj u.pos).1 ≤ max s1.1 s2.1 ∧
    min s1.2 s2.2 ≤ (proj u.pos).2 ∧ (proj u.pos).2 ≤ max s1.2 s2.2)

/-- `onMouseUp` for a left-button release.  The raycast results
(ground pick at press, ground pick at release, unit pick) and the
projection are oracle parameters; `dragStart`/`cur` are the press and
release screen points, `shift` the additive modifier. -/
def onMouseUp (dragStart cur : ℝ × ℝ) (startGround endGround : Option V3)
    (hitUnit : Option ℕ) (proj : V3 → ℝ × ℝ) (shift : Bool)
    (us : List SUnit) : List SUnit × List GameEvent :=
  if Real.sqrt ((cur.1 - dragStart.1) ^ 2 + (cur.2 - dragStart.2) ^ 2) > 5 then
    match startGround, endGround with
    | some g1, some g2 => applySelectionFilter (inWorldRect g1 g2) shift us
    | _, _ => applySelectionFilter (inScreenRect proj dragStart cur) shift us
  else
    match hitUnit with
    | some hid => applySelectionFilter (fun u => u.id == hid) shift us
    | none => if shift then (us, []) else clearSelection us

/-- Fixture unit A at `(0, 0.5, 0)`. -/
def unitA : SUnit := ⟨1, ⟨0, 0.5, 0⟩, none, 6, false, false⟩

/-- Fixture unit B at `(10, 0.5, 10)`. -/
def unitB : SUnit := ⟨2, ⟨10, 0.5, 10⟩, none, 6, false, false⟩

/-- Fixture unit C at `(1, 0.5, 1)`. -/
def unitC : SUnit := ⟨3, ⟨1, 0.5, 1⟩, none, 6, false, false⟩

/-! ## Formation and move command (SpaceRunner.ts 241–252, 375–387) -/

/-- `Math.ceil(Math.sqrt(n))` on a natural count (exact for the counts
a session can produce). -/
def gridSide (n : ℕ) : ℕ :=
  if Nat.sqrt n * Nat.sqrt n = n then Nat.sqrt n else Nat.sqrt n + 1

/-- `formationOffsets(n)`: row-major square grid of side
`ceil(sqrt n)`, spacing 1.4, centered via `half = (side - 1) * 0.5`. -/
def formationOffsets (n : ℕ) : List V3 :=
  (List.range n).map fun i =>
    ⟨((i % gridSide n : ℕ) - ((gridSide n : ℝ) - 1) * 0.5) * 1.4, 0,
      ((i / gridSide n : ℕ) - ((gridSide n : ℝ) - 1) * 0.5) * 1.4⟩

/-- The per-unit assignment `u.target = p.clone().add(offs[i]);
u.hadTarget = true`. -/
def assignUnit (p : V3) (offs : List V3) (i : ℕ) (u : SUnit) : SUnit :=
  { u with target := some (vadd p (offs.getD i vzero)), hadTarget := true }

/-- `selected.forEach((u, i) => ...)`: assign targets to the selected
units in list order, `i` counting selected units seen so far. -/
def assignTargets (p : V3) (offs : List V3) :
    List SUnit → ℕ → List SUnit
  | [], _ => []
  | u :: us, i =>
      if u.selected then
        assignUnit p offs i u :: assignTargets p offs us (i + 1)
      else u :: assignTargets p offs us i

/-- An order marker (`{ mesh, ttl }`). -/
structure OrderMarker where
  pos : V3
  ttl : ℝ

/-- `onContextMenu` (SpaceRunner.ts 375–387); the ground raycast result
is the oracle parameter `groundHit`.  Returns the updated units, the
marker list, and the emitted events. -/
def onContextMenu (groundHit : Option V3) (us : List SUnit)
    (markers : List OrderMarker) :
    List SUnit × List OrderMarker × List GameEvent :=
  match groundHit with
  | none => (us, markers, [])
  | some p =>
      if (us.filter (fun u => u.selected)).length = 0 then (us, markers, [])
      else
        (assignTargets p (formationOffsets
            ((us.filter (fun u => u.selected)).length)) us 0,
          markers ++ [⟨p, 1⟩],
          [GameEvent.commandMove p.x p.z
            ((us.filter (fun u => u.selected)).length)])

/-! ## Movement, separation and arrival (SpaceRunner.ts 423–454) -/

def SEP_RADIUS : ℝ := 1.2

def ARRIVE_EPS : ℝ := 0.12

/-- The separation push one other unit `v` exerts on `u`:
`(u.pos − v.pos).setY(0).normalize() * ((sepRadius − d) * 2)` when
`0 < d < sepRadius`, else nothing. -/
def sepPush (u v : SUnit) : V3 :=
  if 0 < vdist u.pos v.pos ∧ vdist u.pos v.pos < SEP_RADIUS then
    vscale (vnormalize (setY0 (vsub u.pos v.pos)))
      ((SEP_RADIUS - vdist u.pos v.pos) * 2)
  else vzero

/-- The summed separation vector for the unit at index `i` (the
`u === v` identity test is the index test on the array). -/
def sepVector (us : List SUnit) (i : ℕ) (u : SUnit) : V3 :=
  us.enum.foldl
    (fun acc jv => if jv.1 = i then acc else vadd acc (sepPush u jv.2)) vzero

/-- The separation displacement applied to the processed unit:
`u.mesh.position.addScaledVector(sep, dt)`. -/
def sepMoved (dt : ℝ) (us : List SUnit) (i : ℕ) (u : SUnit) : SUnit :=
  { u with pos := vadd u.pos (vscale (sepVector us i u) dt) }

/-- The arrival update: `u.target = null; u.hadTarget = false`. -/
def arrivedUnit (u : SUnit) : SUnit :=
  { u with target := none, hadTarget := false }

/-- The seek step toward a pending target:
`addScaledVector(to.normalize(), u.speed * dt)`. -/
def seekMoved (dt : ℝ) (tg : V3) (u : SUnit) : SUnit :=
  { u with pos := vadd u.pos (vscale (vnormalize (setY0 (vsub tg u.pos))) (u.speed * dt)) }

/-- One iteration of the `for (const u of units)` body, processing the
unit at index `i` of the evolving array: apply the separation
displacement, then seek / arrive.  Emits `unit:arrived` when a pending
target resolves within the epsilon and `hadTarget` is set. -/
def stepUnitAt (dt : ℝ) (st : List SUnit × List GameEvent) (i : ℕ) :
    List SUnit × List GameEvent :=
  match st.1.get? i with
  | none => st
  | some u =>
      let u1 := sepMoved dt st.1 i u
      match u.target with
      | none => (st.1.set i u1, st.2)
      | some tg =>
          if vlength (setY0 (vsub tg u1.pos)) < ARRIVE_EPS then
            (st.1.set i (arrivedUnit u1),
              st.2 ++ if u.hadTarget then
                [GameEvent.unitArrived u.id u1.pos.x u1.pos.z] else [])
          else (st.1.set i (seekMoved dt tg u1), st.2)

/-- `updateUnits(dt)`: process every index in order. -/
def updateUnits (dt : ℝ) (us : List SUnit) :
    List SUnit × List GameEvent :=
  (List.range us.length).foldl (stepUnitAt dt) (us, [])

/-- The pending-target invariant: every unit with a pending move
target has `hadTarget` set.  `onContextMenu` (the only assignment site)
establishes it, and the initial roster (no targets) satisfies it. -/
def PendingInv (us : List SUnit) : Prop :=
  ∀ u ∈ us, u.target.isSome = true → u.hadTarget = true

/-- The unit of the C5 counterexample: selected, standing at the
horizontal origin, no target yet. -/
def cUnit : SUnit := ⟨1, ⟨0, 0.5, 0⟩, none, 6, true, false⟩

/-- `cUnit` right after `onContextMenu` at the origin: target assigned
at its own horizontal position, `hadTarget` set. -/
def cAssigned : SUnit := ⟨1, ⟨0, 0.5, 0⟩, some vzero, 6, true, true⟩

/-! ## Module lifecycle: dispose
(SpaceRunner.ts 508–542, OceanGlide.ts 468–498)

The dispose sequences are modelled as operations on an explicit
resource-ownership state; each operation carries the semantics of the
host API it calls (`cancelAnimationFrame`, `removeEventListener`,
`ResizeObserver.disconnect`, DOM `removeChild`, THREE `.dispose()`). -/

/-- The resources and attachments a mounted game module owns. -/
structure HostState where
  rafPending : Bool
  resizeAttached : Bool
  keysAttached : Bool
  windowKeydownAttached : Bool
  domListeners : Finset ℕ
  canvasAttached : Bool
  overlayNodes : ℕ
  sceneChildren : ℕ
  released : Finset ℕ
  running : Bool

/-- `cancelAnimationFrame(raf)`: a no-op when nothing is pending. -/
def cancelRaf (s : HostState) : HostState := { s with rafPending := false }

/-- `removeResize()`: `ResizeObserver.disconnect()` (or the window
resize `removeEventListener`), a no-op when already detached. -/
def detachResize (s : HostState) : HostState :=
  { s with resizeAttached := false }

/-- `keys.detach()`: two window `removeEventListener` calls (no-ops
when absent) and a reset of the pressed-key map. -/
def detachKeys (s : HostState) : HostState := { s with keysAttached := false }

/-- `window.removeEventListener('keydown', onKeyDown)`. -/
def removeWindowKeydown (s : HostState) : HostState :=
  { s with windowKeydownAttached := false }

/-- The six `dom.removeEventListener` calls of SpaceRunner's dispose
(mousedown, mousemove, mouseup, dblclick, contextmenu, wheel), ids
0..5: a set difference, idempotent like `removeEventListener`. -/
def removeDomListeners (s : HostState) : HostState :=
  { s with domListeners := s.domListeners \ {0, 1, 2, 3, 4, 5} }

/-- `.dispose()` on the renderer / a geometry / a material: THREE
dispatches a dispose event whose renderer-side listener deallocates at
most once and detaches itself, so releasing is recorded as set
insertion — an already-released id stays released and nothing is freed
a second time. -/
def releaseRes (ids : Finset ℕ) (s : HostState) : HostState :=
  { s with released := s.released ∪ ids }

/-- The raw DOM `removeChild`, which throws `NotFoundError` when the
node is not a child of the parent. -/
def removeChildPrim (isChild : Bool) (s : HostState) : Except ℕ HostState :=
  if isChild then Except.ok { s with canvasAttached := false }
  else Except.error 0

/-- `renderer.domElement?.parentElement?.removeChild(renderer.domElement)`:
the optional chain skips the call when the canvas has no parent, and
when it has one the canvas is that parent's child, so the fallible
`removeChild` is only ever invoked on an actual child. -/
def removeCanvas (s : HostState) : Except ℕ HostState :=
  if s.canvasAttached then removeChildPrim true s else Except.ok s

/-- `overlay.innerHTML = ''`. -/
def clearOverlay (s : HostState) : HostState := { s with overlayNodes := 0 }

/-- `scene.clear()`. -/
def sceneClear (s : HostState) : HostState := { s with sceneChildren := 0 }

/-- `start()` (HUD text and `game:started` event aside): set running. -/
def startModule (s : HostState) : HostState := { s with running := true }

/-- Renderer-owned GL resources (`renderer.dispose()`), id 100. -/
def rendererRes : Finset ℕ := {100}

/-- `selFill`/`selEdges` geometries and materials (SpaceRunner). -/
def selGroupRes : Finset ℕ := {101, 102, 103, 104}

/-- water, hull, bow, mast and the two wake strips: geometry and
material each (OceanGlide). -/
def oceanFixedRes : Finset ℕ :=
  {200, 201, 202, 203, 204, 205, 206, 207, 208, 209, 210, 211}

/-- The part of SpaceRunner's dispose before the canvas unmount:
`cancelAnimationFrame`, `removeResize()`, `keys.detach()`, the window
keydown removal, the six canvas listener removals, `renderer.dispose()`
(lines 509–520). -/
def srPre (s : HostState) : HostState :=
  releaseRes rendererRes (removeDomListeners (removeWindowKeydown
    (detachKeys (detachResize (cancelRaf s)))))

/-- The part after the canvas unmount: clear the overlay, release the
selection-group, per-unit and per-marker resources, `scene.clear()`
(lines 522–540).  The `units`/`markers` arrays are not emptied by
dispose, so a second call walks the same resource ids. -/
def srPost (unitRes markerRes : Finset ℕ) (s : HostState) : HostState :=
  sceneClear (releaseRes markerRes (releaseRes unitRes
    (releaseRes selGroupRes (clearOverlay s))))

/-- `dispose()` of SpaceRunner (lines 508–542). -/
def spaceRunnerDispose (unitRes markerRes : Finset ℕ) (s : HostState) :
    Except ℕ HostState :=
  match removeCanvas (srPre s) with
  | Except.error e => Except.error e
  | Except.ok s7 => Except.ok (srPost unitRes markerRes s7)

/-- OceanGlide's dispose before the canvas unmount (lines 469–473). -/
def ogPre (s : HostState) : HostState :=
  releaseRes rendererRes (detachKeys (detachResize (cancelRaf s)))

/-- OceanGlide's dispose after the canvas unmount: clear overlay,
release the fixed meshes' and the buoys' resources, `scene.clear()`
(lines 475–497). -/
def ogPost (buoyRes : Finset ℕ) (s : HostState) : HostState :=
  sceneClear (releaseRes buoyRes (releaseRes oceanFixedRes (clearOverlay s)))

/-- `dispose()` of OceanGlide (lines 468–498). -/
def oceanGlideDispose (buoyRes : Finset ℕ) (s : HostState) :
    Except ℕ HostState :=
  match removeCanvas (ogPre s) with
  | Except.error e => Except.error e
  | Except.ok s5 => Except.ok (ogPost buoyRes s5)

/-! ## Theorems -/

/-! ### NaN propagation through the sampler -/

theorem omegaCode_eq_none (w : GW) : omegaCode w = none := rfl

theorem phaseCode_eq_none (w : GW) (x z t : ℝ) :
    phaseCode w x z t = none := rfl

/-- After one loop iteration every accumulator field is `NaN`. -/
theorem accumStep_all_none (x z t : ℝ) (a : WaveAccum) (w : GW) :
    accumStep x z t a w =
      ⟨jadd a.dispX none, jadd a.dispY none, jadd a.dispZ none,
        jadd a.dHdX none, jadd a.dHdZ none⟩ := by
  simp [accumStep, phaseCode_eq_none, jsin, jcos, jmul]

theorem jadd_none_right (a : JSNum) : jadd a none = none := by
  cases a <;> rfl

theorem jadd_none_left (a : JSNum) : jadd none a = none := rfl

/-- The all-`NaN` accumulator is absorbing for the loop. -/
theorem foldl_accumStep_none (x z t : ℝ) (ws : List GW) :
    ws.foldl (accumStep x z t) ⟨none, none, none, none, none⟩ =
      ⟨none, none, none, none, none⟩ := by
  induction ws with
  | nil => rfl
  | cons w ws ih =>
      simpa [accumStep_all_none, jadd_none_left] using ih

/-- For any nonempty wave list the whole accumulator is `NaN`. -/
theorem foldl_accumStep_ne_nil (x z t : ℝ) (waves : List GW)
    (h : waves ≠ []) :
    waves.foldl (accumStep x z t) accumZero =
      ⟨none, none, none, none, none⟩ := by
  cases waves with
  | nil => exact absurd rfl h
  | cons w ws =>
      rw [List.foldl_cons, accumStep_all_none]
      simpa [accumZero, jadd_none_right] using foldl_accumStep_none x z t ws

/-- For any nonempty wave list the sampler's height is `NaN` and its
normal is the unnormalized `(NaN, 1, NaN)` vector. -/
theorem heightAndNormal_nan (waves : List GW) (h : waves ≠ []) (x z t : ℝ) :
    heightAndNormal waves x z t =
      { height := none
        normal := (none, some 1, none)
        disp := (none, none, none) } := by
  simp only [heightAndNormal, foldl_accumStep_ne_nil x z t waves h]
  simp [jnormalize3, jneg, jmul, jadd, jsqrt]

/-- C1: the claim says the CPU sampler computes
`phase_i = k_i·(dir_i·[x,z]) − ω_i·t` with `ω_i = sqrt(9.81·k_i)·speedScale_i`
and returns `Σ amplitude_i·sin(phase_i)`.  In the code the `omegas` map
runs over the wave objects instead of the wavenumber array, so every
`ω_i` is `NaN` and the returned height is `NaN`, never the claimed real
sum. -/
theorem wave_height_is_nan_not_spec_sum (waves : List GW)
    (h : waves ≠ []) (x z t : ℝ) :
    (heightAndNormal waves x z t).height = none ∧
      (heightAndNormal waves x z t).height ≠ some (heightSpec waves x z t) := by
  rw [heightAndNormal_nan waves h x z t]
  exact ⟨rfl, by simp⟩

/-- Witness for `wave_height_is_nan_not_spec_sum` at the game's first
wave component and query `(0, 0, 1)`. -/
theorem wave_height_is_nan_not_spec_sum_witness :
    [oceanWave1] ≠ ([] : List GW) ∧
      ((heightAndNormal [oceanWave1] 0 0 1).height = none ∧
        (heightAndNormal [oceanWave1] 0 0 1).height ≠
          some (heightSpec [oceanWave1] 0 0 1)) :=
  ⟨by simp, wave_height_is_nan_not_spec_sum [oceanWave1] (by simp) 0 0 1⟩

/-- C2: the claim says that for every wave configuration and input the
sampler returns a unit-length normal and a height bounded by the sum of
the amplitudes.  At the game's own first wave component and input
`(0, 0, 1)` the code instead returns the `NaN` height and the
non-normalized `(NaN, 1, NaN)` normal (whose length is `NaN`, not 1). -/
theorem wave_sampler_nan_normal_and_height :
    (heightAndNormal [oceanWave1] 0 0 1).normal = (none, some 1, none) ∧
      (heightAndNormal [oceanWave1] 0 0 1).normal ≠ (some 0, some 1, some 0) ∧
      (heightAndNormal [oceanWave1] 0 0 1).height = none := by
  rw [heightAndNormal_nan [oceanWave1] (by simp) 0 0 1]
  exact ⟨rfl, by simp, rfl⟩

/-- Closed form of iterated smoothing against a constant raw input:
only the SUM of the tick sizes matters. -/
theorem foldl_smoothIntent_closed (input : ℝ) (dts : List ℝ) :
    ∀ v : ℝ, dts.foldl (fun a d => smoothIntent a input d) v =
      (0.001 : ℝ) ^ dts.sum * v + (1 - (0.001 : ℝ) ^ dts.sum) * input := by
  induction dts with
  | nil => intro v; simp
  | cons d ds ih =>
      intro v
      rw [List.foldl_cons, ih]
      rw [List.sum_cons, Real.rpow_add (by norm_num : (0 : ℝ) < 0.001)]
      unfold smoothIntent lerp
      ring

theorem foldl_updateInput_components (wt ws : ℝ) (dts : List ℝ) :
    ∀ s : Intents, dts.foldl (fun a d => updateInput a wt ws d) s =
      ⟨dts.foldl (fun a d => smoothIntent a wt d) s.throttle,
        dts.foldl (fun a d => smoothIntent a ws d) s.steer⟩ := by
  induction dts with
  | nil => intro s; rfl
  | cons d ds ih => intro s; rw [List.foldl_cons, ih]; rfl

theorem smoothIntent_twice (v input dt : ℝ) :
    smoothIntent (smoothIntent v input dt) input dt =
      smoothIntent v input (2 * dt) := by
  have h : (0.001 : ℝ) ^ (2 * dt) = (0.001 : ℝ) ^ dt * (0.001 : ℝ) ^ dt := by
    rw [two_mul, Real.rpow_add (by norm_num : (0 : ℝ) < 0.001)]
  unfold smoothIntent lerp
  rw [h]; ring

/-- C3: smoothing a constant raw input is independent of how the total
duration is partitioned into ticks — any two tick partitions of the
same total time give the same smoothed throttle and steer, and in
particular two ticks of size `dt` equal one tick of size `2·dt`. -/
theorem intent_smoothing_tick_rate_independent
    (s : Intents) (wantThrottle wantSteer T : ℝ) (dts1 dts2 : List ℝ)
    (h1 : ∀ d ∈ dts1, 0 < d) (h2 : ∀ d ∈ dts2, 0 < d)
    (hs1 : dts1.sum = T) (hs2 : dts2.sum = T) :
    (dts1.foldl (fun a d => updateInput a wantThrottle wantSteer d) s =
      dts2.foldl (fun a d => updateInput a wantThrottle wantSteer d) s) ∧
      ∀ dt : ℝ,
        updateInput (updateInput s wantThrottle wantSteer dt)
            wantThrottle wantSteer dt =
          updateInput s wantThrottle wantSteer (2 * dt) := by
  constructor
  · rw [foldl_updateInput_components, foldl_updateInput_components,
      foldl_smoothIntent_closed, foldl_smoothIntent_closed,
      foldl_smoothIntent_closed, foldl_smoothIntent_closed, hs1, hs2]
  · intro dt
    show updateInput _ _ _ _ = _
    unfold updateInput
    rw [smoothIntent_twice, smoothIntent_twice]

/-- Witness for `intent_smoothing_tick_rate_independent`: partitions
`[1, 2]` and `[3]` of `T = 3`, raw inputs `(1, -1)`, initial state
`(0, 0)`. -/
theorem intent_smoothing_tick_rate_independent_witness :
    (∀ d ∈ ([1, 2] : List ℝ), 0 < d) ∧ (∀ d ∈ ([3] : List ℝ), 0 < d) ∧
      ([1, 2] : List ℝ).sum = 3 ∧ ([3] : List ℝ).sum = 3 ∧
      ((([1, 2] : List ℝ).foldl (fun a d => updateInput a 1 (-1) d) ⟨0, 0⟩ =
        ([3] : List ℝ).foldl (fun a d => updateInput a 1 (-1) d) ⟨0, 0⟩) ∧
        ∀ dt : ℝ, updateInput (updateInput ⟨0, 0⟩ 1 (-1) dt) 1 (-1) dt =
          updateInput ⟨0, 0⟩ 1 (-1) (2 * dt)) :=
  ⟨by norm_num, by norm_num, by norm_num, by norm_num,
    intent_smoothing_tick_rate_independent ⟨0, 0⟩ 1 (-1) 3 [1, 2] [3]
      (by norm_num) (by norm_num) (by norm_num) (by norm_num)⟩

theorem updateSpeed_mem (speed throttle dt : ℝ) :
    -MAX_REV ≤ updateSpeed speed throttle dt ∧
      updateSpeed speed throttle dt ≤ MAX_FWD := by
  refine ⟨le_max_left _ _, ?_⟩
  exact max_le (by norm_num [MAX_REV, MAX_FWD]) (min_le_left _ _)

theorem foldl_updateSpeed_mem (ts : List (ℝ × ℝ)) :
    ∀ (t : ℝ × ℝ) (x : ℝ),
      -MAX_REV ≤ (t :: ts).foldl (fun s p => updateSpeed s p.1 p.2) x ∧
        (t :: ts).foldl (fun s p => updateSpeed s p.1 p.2) x ≤ MAX_FWD := by
  induction ts with
  | nil => intro t x; simpa using updateSpeed_mem x t.1 t.2
  | cons u us ih =>
      intro t x
      rw [List.foldl_cons]
      exact ih u (updateSpeed x t.1 t.2)

/-- C7: after every boat tick the forward speed lies in
`[-MAX_REV, MAX_FWD] = [-3, 14]`, for any initial speed and any
(nonempty) sequence of throttle inputs in `[-1, 1]` with positive tick
sizes — the final clamp in the speed pipeline enforces the bounds
unconditionally. -/
theorem boat_speed_always_bounded (ticks : List (ℝ × ℝ)) (s0 : ℝ)
    (hne : ticks ≠ [])
    (hin : ∀ p ∈ ticks, -1 ≤ p.1 ∧ p.1 ≤ 1 ∧ 0 < p.2) :
    -MAX_REV ≤ ticks.foldl (fun s p => updateSpeed s p.1 p.2) s0 ∧
      ticks.foldl (fun s p => updateSpeed s p.1 p.2) s0 ≤ MAX_FWD := by
  cases ticks with
  | nil => exact absurd rfl hne
  | cons t ts => exact foldl_updateSpeed_mem ts t s0

/-- Witness for `boat_speed_always_bounded`: one full-throttle tick of
size `1/60` from standstill. -/
theorem boat_speed_always_bounded_witness :
    ([(1, 1 / 60)] : List (ℝ × ℝ)) ≠ [] ∧
      (∀ p ∈ ([(1, 1 / 60)] : List (ℝ × ℝ)), -1 ≤ p.1 ∧ p.1 ≤ 1 ∧ 0 < p.2) ∧
      (-MAX_REV ≤ ([(1, 1 / 60)] : List (ℝ × ℝ)).foldl
          (fun s p => updateSpeed s p.1 p.2) 0 ∧
        ([(1, 1 / 60)] : List (ℝ × ℝ)).foldl
          (fun s p => updateSpeed s p.1 p.2) 0 ≤ MAX_FWD) :=
  ⟨by simp, by norm_num,
    boat_speed_always_bounded [(1, 1 / 60)] 0 (by simp) (by norm_num)⟩

theorem filter_selected_after_mark (f : SUnit → Bool) :
    ∀ us : List SUnit, (∀ u ∈ us, u.selected = false) →
      ((us.map (fun u => if f u then select u else u)).filter
          (fun u => u.selected)).length = (us.filter f).length := by
  intro us
  induction us with
  | nil => intro _; rfl
  | cons u us ih =>
      intro h
      have hu : u.selected = false := h u (by simp)
      have hrest := ih (fun v hv => h v (by simp [hv]))
      simp only [List.map_cons, List.filter_cons]
      by_cases hf : f u = true
      · rw [if_pos hf, if_pos (show (select u).selected = true from rfl),
          if_pos hf]
        simp [hrest]
      · rw [if_neg hf, if_neg (by simp [hu]), if_neg hf]
        exact hrest

/-- C10: every non-additive `applySelectionFilter` emits exactly two
`selection:changed` events, in order: first count 0 (from the internal
`clearSelection`), then the count of the units selected by the new
filter. -/
theorem nonadditive_selection_emits_zero_then_count
    (f : SUnit → Bool) (us : List SUnit) :
    (applySelectionFilter f false us).2 =
      [GameEvent.selectionChanged 0,
        GameEvent.selectionChanged
          (((applySelectionFilter f false us).1.filter
              (fun u => u.selected)).length)] := by
  have hclear : ∀ u ∈ us.map deselect, u.selected = false := by
    intro u hu
    rcases List.mem_map.1 hu with ⟨v, _, rfl⟩
    rfl
  simp only [applySelectionFilter, clearSelection, if_neg Bool.false_ne_true]
  rw [filter_selected_after_mark f (us.map deselect) hclear]
  rfl

theorem applySelectionFilter_false_eq (f : SUnit → Bool)
    (hf : ∀ u, f (deselect u) = f u) (us : List SUnit) :
    applySelectionFilter f false us =
      (us.map (fun u => { u with selected := f u }),
        [GameEvent.selectionChanged 0,
          GameEvent.selectionChanged ((us.filter f).length)]) := by
  simp only [applySelectionFilter, clearSelection, if_neg Bool.false_ne_true,
    List.map_map]
  refine congrArg₂ Prod.mk ?_ ?_
  · refine List.map_congr_left ?_
    intro u _
    show (if f (deselect u) then select (deselect u) else deselect u) = _
    rw [hf u]
    cases hfu : f u
    · simp [deselect]
    · simp [select, deselect]
  · have : ((us.map deselect).filter f).length = (us.filter f).length := by
      rw [← List.countP_eq_length_filter, ← List.countP_eq_length_filter,
        List.countP_map]
      exact List.countP_congr (fun u _ => by simp [Function.comp, hf u])
    simp [this]

theorem inWorldRect_deselect (g1 g2 : V3) (u : SUnit) :
    inWorldRect g1 g2 (deselect u) = inWorldRect g1 g2 u := rfl

theorem inScreenRect_deselect (proj : V3 → ℝ × ℝ) (s1 s2 : ℝ × ℝ)
    (u : SUnit) :
    inScreenRect proj s1 s2 (deselect u) = inScreenRect proj s1 s2 u := rfl

/-- C4: on a drag release that moved beyond the click threshold, with
both drag endpoints on the ground, a unit ends up selected exactly when
its `x`/`z` lie in the world rectangle of the two ground points;
otherwise the screen-rectangle projection test is used.  Without the
additive modifier the result replaces the previous selection and the
final `selection:changed` event carries the count of the selected
units.  On the fixture, a ground rectangle containing exactly A and C
selects exactly those two and reports count 2. -/
theorem box_select_world_or_screen (us : List SUnit) (s1 s2 : ℝ × ℝ)
    (proj : V3 → ℝ × ℝ) (hitUnit : Option ℕ)
    (hmoved : Real.sqrt ((s2.1 - s1.1) ^ 2 + (s2.2 - s1.2) ^ 2) > 5) :
    (∀ g1 g2 : V3,
      onMouseUp s1 s2 (some g1) (some g2) hitUnit proj false us =
        (us.map (fun u => { u with selected := inWorldRect g1 g2 u }),
          [GameEvent.selectionChanged 0,
            GameEvent.selectionChanged
              ((us.filter (inWorldRect g1 g2)).length)])) ∧
    (∀ og1 og2 : Option V3, og1 = none ∨ og2 = none →
      onMouseUp s1 s2 og1 og2 hitUnit proj false us =
        (us.map (fun u => { u with selected := inScreenRect proj s1 s2 u }),
          [GameEvent.selectionChanged 0,
            GameEvent.selectionChanged
              ((us.filter (inScreenRect proj s1 s2)).length)])) ∧
    onMouseUp (0, 0) (10, 10) (some ⟨-0.5, 0, -0.5⟩) (some ⟨1.5, 0, 1.5⟩)
        none (fun _ => (0, 0)) false [unitA, unitB, unitC] =
      ([{ unitA with selected := true }, unitB,
          { unitC with selected := true }],
        [GameEvent.selectionChanged 0, GameEvent.selectionChanged 2]) := by
  have hworld : ∀ (t1 t2 : ℝ × ℝ) (g1 g2 : V3) (hu : Option ℕ)
      (pr : V3 → ℝ × ℝ) (vs : List SUnit),
      Real.sqrt ((t2.1 - t1.1) ^ 2 + (t2.2 - t1.2) ^ 2) > 5 →
      onMouseUp t1 t2 (some g1) (some g2) hu pr false vs =
        applySelectionFilter (inWorldRect g1 g2) false vs := by
    intro t1 t2 g1 g2 hu pr vs hm
    simp only [onMouseUp]; rw [if_pos hm]
  refine ⟨?_, ?_, ?_⟩
  · intro g1 g2
    rw [hworld s1 s2 g1 g2 hitUnit proj us hmoved,
      applySelectionFilter_false_eq _ (inWorldRect_deselect g1 g2) us]
  · intro og1 og2 hnone
    have hbranch : onMouseUp s1 s2 og1 og2 hitUnit proj false us =
        applySelectionFilter (inScreenRect proj s1 s2) false us := by
      cases og1 with
      | none =>
          cases og2 <;> (simp only [onMouseUp]; rw [if_pos hmoved])
      | some g1 =>
          cases og2 with
          | none => simp only [onMouseUp]; rw [if_pos hmoved]
          | some g2 => rcases hnone with h | h <;> exact absurd h (by simp)
    rw [hbranch,
      applySelectionFilter_false_eq _ (inScreenRect_deselect proj s1 s2) us]
  · have hm : Real.sqrt (((10 : ℝ) - 0) ^ 2 + ((10 : ℝ) - 0) ^ 2) > 5 := by
      have : (5 : ℝ) < Real.sqrt 200 := by
        rw [show (5 : ℝ) = Real.sqrt 25 by
          rw [show (25 : ℝ) = 5 ^ 2 by norm_num, Real.sqrt_sq (by norm_num)]]
        exact Real.sqrt_lt_sqrt (by norm_num) (by norm_num)
      calc (5 : ℝ) < Real.sqrt 200 := this
        _ = Real.sqrt (((10 : ℝ) - 0) ^ 2 + ((10 : ℝ) - 0) ^ 2) := by norm_num
    have hA : inWorldRect ⟨-0.5, 0, -0.5⟩ ⟨1.5, 0, 1.5⟩ unitA = true := by
      simp only [inWorldRect, unitA, decide_eq_true_eq]
      norm_num [min_def, max_def]
    have hB : inWorldRect ⟨-0.5, 0, -0.5⟩ ⟨1.5, 0, 1.5⟩ unitB = false := by
      simp only [inWorldRect, unitB, decide_eq_false_iff_not]
      norm_num [min_def, max_def]
    have hC : inWorldRect ⟨-0.5, 0, -0.5⟩ ⟨1.5, 0, 1.5⟩ unitC = true := by
      simp only [inWorldRect, unitC, decide_eq_true_eq]
      norm_num [min_def, max_def]
    rw [hworld (0, 0) (10, 10) ⟨-0.5, 0, -0.5⟩ ⟨1.5, 0, 1.5⟩ none
      (fun _ => (0, 0)) [unitA, unitB, unitC] (by simpa using hm)]
    rw [applySelectionFilter_false_eq _
      (inWorldRect_deselect ⟨-0.5, 0, -0.5⟩ ⟨1.5, 0, 1.5⟩) [unitA, unitB, unitC]]
    simp only [List.map_cons, List.map_nil, List.filter_cons, hA, hB, hC,
      List.filter_nil]
    refine congrArg₂ Prod.mk ?_ ?_
    · simp [hA, hB, hC, unitB]
    · simp

/-- Witness for `box_select_world_or_screen` at press `(0,0)`, release
`(20, 0)`. -/
theorem box_select_world_or_screen_witness :
    Real.sqrt ((((20 : ℝ), (0 : ℝ)).1 - ((0 : ℝ), (0 : ℝ)).1) ^ 2 +
        (((20 : ℝ), (0 : ℝ)).2 - ((0 : ℝ), (0 : ℝ)).2) ^ 2) > 5 ∧
      ((∀ g1 g2 : V3,
        onMouseUp (0, 0) (20, 0) (some g1) (some g2) none (fun _ => (0, 0))
            false [unitA] =
          ([{ unitA with selected := inWorldRect g1 g2 unitA }],
            [GameEvent.selectionChanged 0,
              GameEvent.selectionChanged
                (([unitA].filter (inWorldRect g1 g2)).length)])) ∧
      (∀ og1 og2 : Option V3, og1 = none ∨ og2 = none →
        onMouseUp (0, 0) (20, 0) og1 og2 none (fun _ => (0, 0))
            false [unitA] =
          ([{ unitA with selected :=
              inScreenRect (fun _ => (0, 0)) (0, 0) (20, 0) unitA }],
            [GameEvent.selectionChanged 0,
              GameEvent.selectionChanged
                (([unitA].filter
                    (inScreenRect (fun _ => (0, 0)) (0, 0) (20, 0))).length)])) ∧
      onMouseUp (0, 0) (10, 10) (some ⟨-0.5, 0, -0.5⟩) (some ⟨1.5, 0, 1.5⟩)
          none (fun _ => (0, 0)) false [unitA, unitB, unitC] =
        ([{ unitA with selected := true }, unitB,
            { unitC with selected := true }],
          [GameEvent.selectionChanged 0, GameEvent.selectionChanged 2])) := by
  have hm : Real.sqrt ((((20 : ℝ), (0 : ℝ)).1 - ((0 : ℝ), (0 : ℝ)).1) ^ 2 +
      (((20 : ℝ), (0 : ℝ)).2 - ((0 : ℝ), (0 : ℝ)).2) ^ 2) > 5 := by
    have h20 : Real.sqrt ((((20 : ℝ), (0 : ℝ)).1 - ((0 : ℝ), (0 : ℝ)).1) ^ 2 +
        (((20 : ℝ), (0 : ℝ)).2 - ((0 : ℝ), (0 : ℝ)).2) ^ 2) = 20 := by
      rw [show ((((20 : ℝ), (0 : ℝ)).1 - ((0 : ℝ), (0 : ℝ)).1) ^ 2 +
        (((20 : ℝ), (0 : ℝ)).2 - ((0 : ℝ), (0 : ℝ)).2) ^ 2) = 20 ^ 2 by norm_num]
      exact Real.sqrt_sq (by norm_num)
    rw [h20]; norm_num
  have hmain := box_select_world_or_screen [unitA] (0, 0) (20, 0)
    (fun _ => (0, 0)) none hm
  refine ⟨hm, ?_, ?_, ?_⟩
  · intro g1 g2
    have := hmain.1 g1 g2
    simpa using this
  · intro og1 og2 hnone
    have := hmain.2.1 og1 og2 hnone
    simpa using this
  · exact hmain.2.2

theorem formationOffsets_length (n : ℕ) :
    (formationOffsets n).length = n := by
  simp [formationOffsets]

/-- The offsets are pairwise distinct: row and column are recovered
from the coordinates, and `(i / side, i % side)` determines `i`. -/
theorem formationOffsets_nodup (n : ℕ) : (formationOffsets n).Nodup := by
  refine List.Nodup.map_on ?_ (List.nodup_range n)
  intro i _ j _ hij
  have hx := congrArg V3.x hij
  have hz := congrArg V3.z hij
  simp only at hx hz
  have hc : i % gridSide n = j % gridSide n := by
    have h1 : ((i % gridSide n : ℕ) : ℝ) = ((j % gridSide n : ℕ) : ℝ) := by
      have := mul_right_cancel₀ (by norm_num : (1.4 : ℝ) ≠ 0) hx
      linarith
    exact_mod_cast h1
  have hr : i / gridSide n = j / gridSide n := by
    have h1 : ((i / gridSide n : ℕ) : ℝ) = ((j / gridSide n : ℕ) : ℝ) := by
      have := mul_right_cancel₀ (by norm_num : (1.4 : ℝ) ≠ 0) hz
      linarith
    exact_mod_cast h1
  have hi := Nat.div_add_mod i (gridSide n)
  have hj := Nat.div_add_mod j (gridSide n)
  rw [hr, hc] at hi
  omega

/-- `gridSide` is exactly the ceiling of the real square root. -/
theorem gridSide_eq_ceil_sqrt (n : ℕ) :
    gridSide n = ⌈Real.sqrt n⌉₊ := by
  unfold gridSide
  by_cases h : Nat.sqrt n * Nat.sqrt n = n
  · rw [if_pos h]
    have hs : Real.sqrt n = (Nat.sqrt n : ℝ) := by
      have hcast : (n : ℝ) = (Nat.sqrt n : ℝ) * (Nat.sqrt n : ℝ) := by
        exact_mod_cast h.symm
      rw [hcast]
      exact Real.sqrt_mul_self (Nat.cast_nonneg _)
    rw [hs, Nat.ceil_natCast]
  · rw [if_neg h]
    have hlow : (Nat.sqrt n : ℝ) < Real.sqrt n := by
      rw [Real.lt_sqrt (Nat.cast_nonneg _)]
      have h1 : Nat.sqrt n * Nat.sqrt n ≤ n := by
        simpa [pow_two] using Nat.sqrt_le' n
      have h2 : Nat.sqrt n * Nat.sqrt n < n := lt_of_le_of_ne h1 h
      have : ((Nat.sqrt n * Nat.sqrt n : ℕ) : ℝ) < (n : ℝ) := by
        exact_mod_cast h2
      calc ((Nat.sqrt n : ℝ)) ^ 2 = ((Nat.sqrt n * Nat.sqrt n : ℕ) : ℝ) := by
            push_cast; ring
        _ < (n : ℝ) := this
    have hhigh : Real.sqrt n ≤ ((Nat.sqrt n + 1 : ℕ) : ℝ) := by
      have hn : (n : ℝ) ≤ (((Nat.sqrt n + 1) * (Nat.sqrt n + 1) : ℕ) : ℝ) := by
        exact_mod_cast Nat.le_of_lt (Nat.lt_succ_sqrt n)
      calc Real.sqrt n ≤ Real.sqrt (((Nat.sqrt n + 1) * (Nat.sqrt n + 1) : ℕ) : ℝ) :=
            Real.sqrt_le_sqrt hn
        _ = ((Nat.sqrt n + 1 : ℕ) : ℝ) := by
            push_cast
            rw [show ((Nat.sqrt n : ℝ) + 1) * ((Nat.sqrt n : ℝ) + 1) =
              ((Nat.sqrt n : ℝ) + 1) ^ 2 by ring]
            exact Real.sqrt_sq (by positivity)
    symm
    rw [Nat.ceil_eq_iff (by omega)]
    constructor
    · simpa using hlow
    · simpa using hhigh

theorem assignTargets_targets (p : V3) (offs : List V3) :
    ∀ (us : List SUnit) (i : ℕ),
      i + (us.filter (fun u => u.selected)).length ≤ offs.length →
      ((assignTargets p offs us i).filter (fun u => u.selected)).map
          (fun u => u.target) =
        ((offs.drop i).take ((us.filter (fun u => u.selected)).length)).map
          (fun o => some (vadd p o)) := by
  intro us
  induction us with
  | nil => intro i _; simp [assignTargets]
  | cons u us ih =>
      intro i hlen
      by_cases hsel : u.selected = true
      · have hcount : ((u :: us).filter (fun v => v.selected)).length =
            (us.filter (fun v => v.selected)).length + 1 := by
          simp [List.filter_cons, hsel]
        have hi : i < offs.length := by
          rw [hcount] at hlen; omega
        have hdrop : offs.drop i = offs[i] :: offs.drop (i + 1) :=
          List.drop_eq_getElem_cons hi
        have hgetD : offs.getD i vzero = offs[i] :=
          List.getD_eq_getElem offs _ hi
        have hstep : assignTargets p offs (u :: us) i =
            assignUnit p offs i u :: assignTargets p offs us (i + 1) := by
          simp [assignTargets, hsel]
        rw [hstep, List.filter_cons]
        rw [if_pos (show (assignUnit p offs i u).selected = true from hsel)]
        rw [List.map_cons, hcount, hdrop, List.take_succ_cons, List.map_cons]
        refine congrArg₂ List.cons ?_ ?_
        · show (assignUnit p offs i u).target = some (vadd p offs[i])
          rw [show (assignUnit p offs i u).target =
            some (vadd p (offs.getD i vzero)) from rfl, hgetD]
        · exact ih (i + 1) (by rw [hcount] at hlen; omega)
      · have hsel' : u.selected = false := by
          cases hs : u.selected
          · rfl
          · exact absurd hs hsel
        have hcount : ((u :: us).filter (fun v => v.selected)).length =
            (us.filter (fun v => v.selected)).length := by
          simp [List.filter_cons, hsel']
        have hstep : assignTargets p offs (u :: us) i =
            u :: assignTargets p offs us i := by
          simp [assignTargets, hsel']
        rw [hstep, List.filter_cons, if_neg (by simp [hsel']), hcount]
        exact ih i (by rw [hcount] at hlen; exact hlen)

/-- C8: a ground move command with `N ≥ 1` selected units assigns the
`i`-th selected unit the target `p + offs[i]` where `offs` is the
formation grid of side `ceil(sqrt N)`; the offsets (hence the targets)
are pairwise distinct, and exactly one `command:move` event is emitted
carrying the clicked point and the count `N`. -/
theorem command_move_assigns_formation (us : List SUnit) (p : V3)
    (markers : List OrderMarker)
    (hsel : 1 ≤ (us.filter (fun u => u.selected)).length) :
    (((onContextMenu (some p) us markers).1.filter
          (fun u => u.selected)).map (fun u => u.target) =
        (formationOffsets ((us.filter (fun u => u.selected)).length)).map
          (fun o => some (vadd p o))) ∧
      (formationOffsets ((us.filter (fun u => u.selected)).length)).Nodup ∧
      gridSide ((us.filter (fun u => u.selected)).length) =
        ⌈Real.sqrt ((us.filter (fun u => u.selected)).length)⌉₊ ∧
      (onContextMenu (some p) us markers).2.2 =
        [GameEvent.commandMove p.x p.z
          ((us.filter (fun u => u.selected)).length)] := by
  have hne : ¬((us.filter (fun u => u.selected)).length = 0) := by omega
  refine ⟨?_, formationOffsets_nodup _, gridSide_eq_ceil_sqrt _, ?_⟩
  · simp only [onContextMenu, if_neg hne]
    have hlen : 0 + (us.filter (fun u => u.selected)).length ≤
        (formationOffsets ((us.filter (fun u => u.selected)).length)).length := by
      rw [formationOffsets_length]
      omega
    rw [assignTargets_targets p _ us 0 hlen]
    rw [List.drop_zero, List.take_of_length_le (by rw [formationOffsets_length])]
  · simp only [onContextMenu, if_neg hne]

/-- Witness for `command_move_assigns_formation`: two selected units,
clicked ground point `(4, 0, 6)`. -/
theorem command_move_assigns_formation_witness :
    1 ≤ (([{ unitA with selected := true }, unitB,
        { unitC with selected := true }] : List SUnit).filter
          (fun u => u.selected)).length ∧
      ((((onContextMenu (some ⟨4, 0, 6⟩)
            [{ unitA with selected := true }, unitB,
              { unitC with selected := true }] []).1.filter
            (fun u => u.selected)).map (fun u => u.target) =
          (formationOffsets (([{ unitA with selected := true }, unitB,
              { unitC with selected := true }] : List SUnit).filter
                (fun u => u.selected)).length).map
            (fun o => some (vadd ⟨4, 0, 6⟩ o))) ∧
        (formationOffsets (([{ unitA with selected := true }, unitB,
            { unitC with selected := true }] : List SUnit).filter
              (fun u => u.selected)).length).Nodup ∧
        gridSide (([{ unitA with selected := true }, unitB,
            { unitC with selected := true }] : List SUnit).filter
              (fun u => u.selected)).length =
          ⌈Real.sqrt ((([{ unitA with selected := true }, unitB,
              { unitC with selected := true }] : List SUnit).filter
                (fun u => u.selected)).length : ℕ)⌉₊ ∧
        (onContextMenu (some ⟨4, 0, 6⟩)
            [{ unitA with selected := true }, unitB,
              { unitC with selected := true }] []).2.2 =
          [GameEvent.commandMove (4 : ℝ) (6 : ℝ)
            (([{ unitA with selected := true }, unitB,
                { unitC with selected := true }] : List SUnit).filter
                  (fun u => u.selected)).length]) := by
  have hsel : 1 ≤ (([{ unitA with selected := true }, unitB,
      { unitC with selected := true }] : List SUnit).filter
        (fun u => u.selected)).length := by
    simp [List.filter_cons, unitB]
  exact ⟨hsel, command_move_assigns_formation _ ⟨4, 0, 6⟩ [] hsel⟩

theorem stepUnitAt_miss (dt : ℝ) (st : List SUnit × List GameEvent)
    (i : ℕ) (hget : st.1.get? i = none) : stepUnitAt dt st i = st := by
  rw [List.get?_eq_getElem?] at hget
  simp [stepUnitAt, hget]

theorem stepUnitAt_notarget (dt : ℝ) (st : List SUnit × List GameEvent)
    (i : ℕ) (u : SUnit) (hget : st.1.get? i = some u)
    (htg : u.target = none) :
    stepUnitAt dt st i = (st.1.set i (sepMoved dt st.1 i u), st.2) := by
  rw [List.get?_eq_getElem?] at hget
  simp [stepUnitAt, hget, htg]

theorem stepUnitAt_arrive (dt : ℝ) (st : List SUnit × List GameEvent)
    (i : ℕ) (u : SUnit) (tg : V3) (hget : st.1.get? i = some u)
    (htg : u.target = some tg) (hhad : u.hadTarget = true)
    (harr : vlength (setY0 (vsub tg (sepMoved dt st.1 i u).pos)) < ARRIVE_EPS) :
    stepUnitAt dt st i =
      (st.1.set i (arrivedUnit (sepMoved dt st.1 i u)),
        st.2 ++ [GameEvent.unitArrived u.id (sepMoved dt st.1 i u).pos.x
          (sepMoved dt st.1 i u).pos.z]) := by
  rw [List.get?_eq_getElem?] at hget
  simp only [stepUnitAt, List.get?_eq_getElem?, hget, htg]
  rw [if_pos harr, hhad]
  simp

theorem stepUnitAt_seek (dt : ℝ) (st : List SUnit × List GameEvent)
    (i : ℕ) (u : SUnit) (tg : V3) (hget : st.1.get? i = some u)
    (htg : u.target = some tg)
    (harr : ¬vlength (setY0 (vsub tg (sepMoved dt st.1 i u).pos)) < ARRIVE_EPS) :
    stepUnitAt dt st i =
      (st.1.set i (seekMoved dt tg (sepMoved dt st.1 i u)), st.2) := by
  rw [List.get?_eq_getElem?] at hget
  simp only [stepUnitAt, List.get?_eq_getElem?, hget, htg]
  rw [if_neg harr]

theorem countP_set (p : SUnit → Bool) :
    ∀ (us : List SUnit) (i : ℕ) (u v : SUnit), us.get? i = some u →
      (us.set i v).countP p + (if p u then 1 else 0) =
        us.countP p + (if p v then 1 else 0) := by
  intro us
  induction us with
  | nil => intro i u v h; simp at h
  | cons w ws ih =>
      intro i u v h
      cases i with
      | zero =>
          simp only [List.get?] at h
          injection h with h
          subst h
          simp only [List.set, List.countP_cons]
          omega
      | succ j =>
          simp only [List.get?] at h
          have := ih j u v h
          simp only [List.set, List.countP_cons]
          omega

theorem stepUnitAt_spec (dt : ℝ) (st : List SUnit × List GameEvent)
    (i : ℕ) (hinv : PendingInv st.1) :
    PendingInv (stepUnitAt dt st i).1 ∧
      st.1.countP (fun u => u.target.isSome) + st.2.length =
        (stepUnitAt dt st i).1.countP (fun u => u.target.isSome) +
          (stepUnitAt dt st i).2.length := by
  cases hget : st.1.get? i with
  | none =>
      rw [stepUnitAt_miss dt st i hget]
      exact ⟨hinv, rfl⟩
  | some u =>
      have humem : u ∈ st.1 := List.get?_mem hget
      cases htg : u.target with
      | none =>
          rw [stepUnitAt_notarget dt st i u hget htg]
          constructor
          · intro w hw ht
            rcases List.mem_or_eq_of_mem_set hw with hmem | heq
            · exact hinv w hmem ht
            · subst heq
              rw [show (sepMoved dt st.1 i u).target = u.target from rfl,
                htg] at ht
              simp at ht
          · have ht1 : (sepMoved dt st.1 i u).target = u.target := rfl
            have hcs := countP_set (fun w => w.target.isSome) st.1 i u
              (sepMoved dt st.1 i u) hget
            simp [ht1, htg] at hcs
            dsimp only
            omega
      | some tg =>
          have hhad : u.hadTarget = true := hinv u humem (by simp [htg])
          by_cases harr : vlength (setY0 (vsub tg
              (sepMoved dt st.1 i u).pos)) < ARRIVE_EPS
          · rw [stepUnitAt_arrive dt st i u tg hget htg hhad harr]
            constructor
            · intro w hw ht
              rcases List.mem_or_eq_of_mem_set hw with hmem | heq
              · exact hinv w hmem ht
              · subst heq
                rw [show (arrivedUnit (sepMoved dt st.1 i u)).target =
                  none from rfl] at ht
                simp at ht
            · have ht1 : (arrivedUnit (sepMoved dt st.1 i u)).target =
                  (none : Option V3) := rfl
              have hcs := countP_set (fun w => w.target.isSome) st.1 i u
                (arrivedUnit (sepMoved dt st.1 i u)) hget
              simp [ht1, htg] at hcs
              dsimp only
              simp only [List.length_append, List.length_cons, List.length_nil]
              omega
          · rw [stepUnitAt_seek dt st i u tg hget htg harr]
            constructor
            · intro w hw ht
              rcases List.mem_or_eq_of_mem_set hw with hmem | heq
              · exact hinv w hmem ht
              · subst heq
                rw [show (seekMoved dt tg (sepMoved dt st.1 i u)).hadTarget =
                  u.hadTarget from rfl]
                exact hhad
            · have ht1 : (seekMoved dt tg (sepMoved dt st.1 i u)).target =
                  u.target := rfl
              have hcs := countP_set (fun w => w.target.isSome) st.1 i u
                (seekMoved dt tg (sepMoved dt st.1 i u)) hget
              simp [ht1, htg] at hcs
              dsimp only
              omega

theorem foldl_stepUnitAt_spec (dt : ℝ) (idxs : List ℕ) :
    ∀ st : List SUnit × List GameEvent, PendingInv st.1 →
      PendingInv (idxs.foldl (stepUnitAt dt) st).1 ∧
        st.1.countP (fun u => u.target.isSome) + st.2.length =
          (idxs.foldl (stepUnitAt dt) st).1.countP
              (fun u => u.target.isSome) +
            (idxs.foldl (stepUnitAt dt) st).2.length := by
  induction idxs with
  | nil => intro st h; exact ⟨h, rfl⟩
  | cons i is ih =>
      intro st h
      have h1 := stepUnitAt_spec dt st i h
      have h2 := ih (stepUnitAt dt st i) h1.1
      rw [List.foldl_cons]
      exact ⟨h2.1, by omega⟩

theorem assignTargets_pending_inv (p : V3) (offs : List V3) :
    ∀ (us : List SUnit) (i : ℕ), PendingInv us →
      PendingInv (assignTargets p offs us i) := by
  intro us
  induction us with
  | nil => intro i _ u hu; simp [assignTargets] at hu
  | cons w ws ih =>
      intro i h u hu
      by_cases hsel : w.selected = true
      · rw [show assignTargets p offs (w :: ws) i =
            assignUnit p offs i w :: assignTargets p offs ws (i + 1) from by
          simp [assignTargets, hsel]] at hu
        rcases List.mem_cons.mp hu with heq | hmem
        · subst heq; intro _; rfl
        · exact ih (i + 1)
            (fun v hv hvt => h v (List.mem_cons_of_mem _ hv) hvt) u hmem
      · rw [show assignTargets p offs (w :: ws) i =
            w :: assignTargets p offs ws i from by
          simp [assignTargets, hsel]] at hu
        rcases List.mem_cons.mp hu with heq | hmem
        · intro hvt
          rw [heq] at hvt ⊢
          exact h w (by simp) hvt
        · exact ih i
            (fun v hv hvt => h v (List.mem_cons_of_mem _ hv) hvt) u hmem

/-- C5 (amended): arrival events are in one-to-one correspondence with
target clears — every pending target that resolves within the epsilon
emits `unit:arrived` (including one already within epsilon when it was
assigned, since every command sets `hadTarget`), a roster with no
pending targets emits nothing, and `onContextMenu` preserves the
pending-target invariant that makes the `hadTarget` guard always
pass. -/
theorem arrival_events_match_target_clears (dt : ℝ) (us : List SUnit)
    (hinv : PendingInv us) :
    (us.countP (fun u => u.target.isSome) =
        (updateUnits dt us).1.countP (fun u => u.target.isSome) +
          (updateUnits dt us).2.length) ∧
      ((∀ u ∈ us, u.target = none) → (updateUnits dt us).2 = []) ∧
      ∀ (p : Option V3) (us0 : List SUnit) (ms : List OrderMarker),
        PendingInv us0 → PendingInv (onContextMenu p us0 ms).1 := by
  have hmain := foldl_stepUnitAt_spec dt (List.range us.length) (us, []) hinv
  have heq : us.countP (fun u => u.target.isSome) =
      (updateUnits dt us).1.countP (fun u => u.target.isSome) +
        (updateUnits dt us).2.length := by
    have := hmain.2
    simpa [updateUnits] using this
  refine ⟨heq, ?_, ?_⟩
  · intro hnone
    have hz : us.countP (fun u => u.target.isSome) = 0 := by
      rw [List.countP_eq_zero]
      intro u hu
      simp [hnone u hu]
    rw [hz] at heq
    exact List.length_eq_zero.mp (by omega)
  · intro p us0 ms h0
    cases p with
    | none => exact h0
    | some q =>
        by_cases hn : (us0.filter (fun u => u.selected)).length = 0
        · simpa [onContextMenu, hn] using h0
        · simp only [onContextMenu, if_neg hn]
          exact assignTargets_pending_inv q _ us0 0 h0

/-- Witness for `arrival_events_match_target_clears`: the single-unit
roster with no pending target. -/
theorem arrival_events_match_target_clears_witness :
    PendingInv [⟨1, ⟨0, 0.5, 0⟩, none, 6, true, false⟩] ∧
      (([⟨1, ⟨0, 0.5, 0⟩, none, 6, true, false⟩] : List SUnit).countP
            (fun u => u.target.isSome) =
          (updateUnits 1 [⟨1, ⟨0, 0.5, 0⟩, none, 6, true, false⟩]).1.countP
              (fun u => u.target.isSome) +
            (updateUnits 1
              [⟨1, ⟨0, 0.5, 0⟩, none, 6, true, false⟩]).2.length ∧
        ((∀ u ∈ ([⟨1, ⟨0, 0.5, 0⟩, none, 6, true, false⟩] : List SUnit),
            u.target = none) →
          (updateUnits 1 [⟨1, ⟨0, 0.5, 0⟩, none, 6, true, false⟩]).2 = []) ∧
        ∀ (p : Option V3) (us0 : List SUnit) (ms : List OrderMarker),
          PendingInv us0 → PendingInv (onContextMenu p us0 ms).1) := by
  have h0 : PendingInv [⟨1, ⟨0, 0.5, 0⟩, none, 6, true, false⟩] := by
    intro u hu
    rw [List.mem_singleton.mp hu]
    simp
  exact ⟨h0, arrival_events_match_target_clears 1 _ h0⟩

theorem cUnit_command :
    (onContextMenu (some vzero) [cUnit] []).1 = [cAssigned] := by
  have hs : Nat.sqrt 1 = 1 := by decide
  simp only [onContextMenu, List.filter, cUnit, List.length_cons,
    List.length_nil]
  rw [if_neg (by norm_num)]
  have hr : List.range 1 = [0] := by decide
  simp only [assignTargets, assignUnit, cUnit, formationOffsets, gridSide, hs, hr]
  norm_num [cAssigned, vadd, vzero, List.getD]

theorem sepMoved_cAssigned :
    (sepMoved 1 [cAssigned] 0 cAssigned).pos = cAssigned.pos := by
  have hsep : sepVector [cAssigned] 0 cAssigned = vzero := by
    simp [sepVector, List.enum, List.enumFrom]
  rw [show (sepMoved 1 [cAssigned] 0 cAssigned).pos =
    vadd cAssigned.pos (vscale (sepVector [cAssigned] 0 cAssigned) 1) from rfl]
  rw [hsep]
  show vadd cAssigned.pos (vscale vzero 1) = cAssigned.pos
  simp [vadd, vscale, vzero, cAssigned]

/-- C5 counterexample: the claim says a target that resolves within the
arrival epsilon on the very tick it is assigned emits NO arrival event.
In the code `onContextMenu` sets `hadTarget = true` on every command,
so a unit commanded to (essentially) its own position emits
`unit:arrived` on the first `updateUnits` tick. -/
theorem instant_arrival_emits_event :
    (updateUnits 1 (onContextMenu (some vzero) [cUnit] []).1).2 =
      [GameEvent.unitArrived 1 0 0] := by
  rw [cUnit_command]
  have harr : vlength (setY0 (vsub vzero
      (sepMoved 1 [cAssigned] 0 cAssigned).pos)) < ARRIVE_EPS := by
    rw [sepMoved_cAssigned]
    have h0 : vlength (setY0 (vsub vzero cAssigned.pos)) = 0 := by
      simp [vlength, setY0, vsub, vzero, cAssigned]
    rw [h0, ARRIVE_EPS]
    norm_num
  have hrange : List.range ([cAssigned] : List SUnit).length = [0] := by
    decide
  rw [show updateUnits 1 [cAssigned] =
    (List.range ([cAssigned] : List SUnit).length).foldl (stepUnitAt 1)
      ([cAssigned], []) from rfl]
  rw [hrange, List.foldl_cons, List.foldl_nil]
  rw [stepUnitAt_arrive 1 ([cAssigned], []) 0 cAssigned vzero rfl rfl rfl harr]
  rw [show (([cAssigned] : List SUnit).set 0
      (arrivedUnit (sepMoved 1 [cAssigned] 0 cAssigned)),
      ([] : List GameEvent) ++ [GameEvent.unitArrived cAssigned.id
        (sepMoved 1 [cAssigned] 0 cAssigned).pos.x
        (sepMoved 1 [cAssigned] 0 cAssigned).pos.z]).2 =
    [GameEvent.unitArrived cAssigned.id
      (sepMoved 1 [cAssigned] 0 cAssigned).pos.x
      (sepMoved 1 [cAssigned] 0 cAssigned).pos.z] from by simp]
  rw [sepMoved_cAssigned]
  simp [cAssigned]

/-- The guarded canvas unmount never throws, and always leaves the
canvas detached. -/
theorem removeCanvas_eq (s : HostState) :
    removeCanvas s = Except.ok { s with canvasAttached := false } := by
  unfold removeCanvas removeChildPrim
  by_cases hc : s.canvasAttached = true
  · rw [if_pos hc, if_pos rfl]
  · rw [if_neg hc]
    have hfalse : s.canvasAttached = false := by
      cases h : s.canvasAttached
      · rfl
      · exact absurd h hc
    cases s
    simp_all

theorem spaceRunnerDispose_eq (unitRes markerRes : Finset ℕ)
    (s : HostState) :
    spaceRunnerDispose unitRes markerRes s =
      Except.ok (srPost unitRes markerRes
        { srPre s with canvasAttached := false }) := by
  unfold spaceRunnerDispose
  rw [removeCanvas_eq]

theorem oceanGlideDispose_eq (buoyRes : Finset ℕ) (s : HostState) :
    oceanGlideDispose buoyRes s =
      Except.ok (ogPost buoyRes { ogPre s with canvasAttached := false }) := by
  unfold oceanGlideDispose
  rw [removeCanvas_eq]

/-- The state SpaceRunner's dispose produces, field by field. -/
theorem srDisposed_fields (unitRes markerRes : Finset ℕ) (s : HostState) :
    srPost unitRes markerRes { srPre s with canvasAttached := false } =
      HostState.mk false false false false
        (s.domListeners \ {0, 1, 2, 3, 4, 5}) false 0 0
        ((((s.released ∪ rendererRes) ∪ selGroupRes) ∪ unitRes) ∪ markerRes)
        s.running := rfl

/-- Running SpaceRunner's dispose on an already-disposed state changes
nothing: in particular the released set stays the same. -/
theorem srDisposed_stable (unitRes markerRes : Finset ℕ) (s : HostState) :
    srPost unitRes markerRes
        { srPre (srPost unitRes markerRes { srPre s with canvasAttached := false }) with canvasAttached := false } =
      srPost unitRes markerRes { srPre s with canvasAttached := false } := by
  simp only [srDisposed_fields]
  simp only [HostState.mk.injEq, Finset.sdiff_idem, and_true, true_and,
    eq_self_iff_true]
  ext x
  simp
  tauto

theorem spaceRunnerDispose_idem (unitRes markerRes : Finset ℕ)
    (s : HostState) :
    ∃ s1, spaceRunnerDispose unitRes markerRes s = Except.ok s1 ∧
      spaceRunnerDispose unitRes markerRes s1 = Except.ok s1 := by
  refine ⟨_, spaceRunnerDispose_eq unitRes markerRes s, ?_⟩
  rw [spaceRunnerDispose_eq, srDisposed_stable]

/-- The state OceanGlide's dispose produces, field by field. -/
theorem ogDisposed_fields (buoyRes : Finset ℕ) (s : HostState) :
    ogPost buoyRes { ogPre s with canvasAttached := false } =
      HostState.mk false false false s.windowKeydownAttached s.domListeners
        false 0 0 (((s.released ∪ rendererRes) ∪ oceanFixedRes) ∪ buoyRes)
        s.running := rfl

theorem ogDisposed_stable (buoyRes : Finset ℕ) (s : HostState) :
    ogPost buoyRes
        { ogPre (ogPost buoyRes { ogPre s with canvasAttached := false }) with canvasAttached := false } =
      ogPost buoyRes { ogPre s with canvasAttached := false } := by
  simp only [ogDisposed_fields]
  simp only [HostState.mk.injEq, and_true, true_and, eq_self_iff_true]
  ext x
  simp
  tauto

theorem oceanGlideDispose_idem (buoyRes : Finset ℕ) (s : HostState) :
    ∃ s1, oceanGlideDispose buoyRes s = Except.ok s1 ∧
      oceanGlideDispose buoyRes s1 = Except.ok s1 := by
  refine ⟨_, oceanGlideDispose_eq buoyRes s, ?_⟩
  rw [oceanGlideDispose_eq, ogDisposed_stable]

/-- C6: for both game modules `dispose()` always completes without
error — the only fallible step, the DOM `removeChild`, is behind the
optional chain — and a second dispose returns the state of the first
unchanged: in particular its released-resource set does not grow, so
nothing is freed twice.  The result holds for every state, hence also
for a handle whose `start()` was never called (dispose never reads the
running flag `startModule` sets). -/
theorem dispose_idempotent_and_safe (unitRes markerRes buoyRes : Finset ℕ)
    (s t : HostState) :
    (∃ s1, spaceRunnerDispose unitRes markerRes s = Except.ok s1 ∧
        spaceRunnerDispose unitRes markerRes s1 = Except.ok s1) ∧
      ∃ t1, oceanGlideDispose buoyRes t = Except.ok t1 ∧
        oceanGlideDispose buoyRes t1 = Except.ok t1 :=
  ⟨spaceRunnerDispose_idem unitRes markerRes s,
    oceanGlideDispose_idem buoyRes t⟩

/-- C9: the claim says the boat orientation update never sees `NaN`
(falling back to world-up for degenerate normals) and the boat
quaternion is `NaN`-free on every tick.  With the game's actual wave
configuration the sampler hands `updateBoat` the normal
`(NaN, 1, NaN)` at every query — not the world-up `(0, 1, 0)` — and
`updateBoat` (OceanGlide.ts lines 393–398) uses it unguarded as
`targetUp`, so the quaternion built from it is `NaN`. -/
theorem boat_orientation_receives_nan_normal (x z t : ℝ) :
    (heightAndNormal oceanWaves x z t).normal = (none, some 1, none) ∧
      (heightAndNormal oceanWaves x z t).normal ≠ (some 0, some 1, some 0) := by
  rw [heightAndNormal_nan oceanWaves (by simp [oceanWaves]) x z t]
  exact ⟨rfl, by simp⟩

end
